import Mathlib

/-!
Verification development for the import resolver of a packaging tool
(`imports_resolver.py`).  The resolver walks a Python import graph,
classifies each discovered module as part of an installed distribution or a
standalone local file, and accumulates the set of files and distributions to
bundle.

The embedding below translates the source file's pure path algebra and the
stateful resolver operations into Lean.  Paths are modelled with the POSIX
flavour of `pathlib` (segments separated by `/`, a leading `/` kept as its
own first part, empty and `.` segments dropped).  External collaborators
(the ambient module loader, the filesystem, the distribution index, and the
per-statement syntax handlers) are abstracted as an explicit `Env` record of
functions, exactly at the interfaces the source uses them.
-/

namespace ServerlessPack

/-- `takeStart needle hay` is true iff `needle` is an initial run of `hay`
(character-list version of string-prefix testing). -/
def takeStart : List Char → List Char → Bool
  | [], _ => true
  | _ :: _, [] => false
  | a :: as, b :: bs => a = b && takeStart as bs

/-- `hasSub needle hay` models the Python substring test `needle in hay`. -/
def hasSub (needle : List Char) : List Char → Bool
  | [] => takeStart needle []
  | b :: bs => takeStart needle (b :: bs) || hasSub needle bs

/-- Split a character list on `/` separators (segments may be empty). -/
def splitOnSlash : List Char → List (List Char)
  | [] => [[]]
  | c :: rest =>
    let r := splitOnSlash rest
    if c = '/' then [] :: r
    else
      match r with
      | [] => [[c]]
      | seg :: segs => (c :: seg) :: segs

/-- Whether a string starts with the `/` character. -/
def startsWithSlash (s : String) : Bool :=
  match s.data with
  | '/' :: _ => true
  | _ => false

/-- Whether a string ends with the `/` character. -/
def endsWithSlash (s : String) : Bool :=
  match s.data.getLast? with
  | some '/' => true
  | _ => false

/-- Model of `pathlib.PurePosixPath(s).parts` (also of the pre-3.12 private
list `Path(s).parents._parts`, which holds the same segments): split on `/`,
drop empty and `.` segments, and keep a leading `/` root as its own first
part. -/
def pathParts (s : String) : List String :=
  let segs := ((splitOnSlash s.data).map String.mk).filter
    (fun seg => seg ≠ "" && seg ≠ ".")
  if startsWithSlash s then "/" :: segs else segs

/-- Model of `pathlib.PurePath.name`: the final path component, `""` for the
bare root. -/
def pathName (p : String) : String :=
  match (pathParts p).getLast? with
  | none => ""
  | some n => if n = "/" then "" else n

/-- Model of `pathlib.PurePath.suffix`: the extension of the final
component, dot included; empty when the name has no interior dot
(`rfind('.')` index `i` must satisfy `0 < i < len(name) - 1`). -/
def pathSuffix (p : String) : String :=
  let name := (pathName p).data
  let afterDot := name.reverse.takeWhile (fun c => c ≠ '.')
  if afterDot.length = name.length then ""
  else if afterDot.length = 0 then ""
  else if afterDot.length = name.length - 1 then ""
  else String.mk ('.' :: afterDot.reverse)

/-- Model of `pathlib.PurePath.with_suffix` on an already-normalised path
string: drop the current suffix of the final component and append the new
one. -/
def withSuffix (p newSuffix : String) : String :=
  let suf := pathSuffix p
  String.mk ((p.data.reverse.drop suf.data.length).reverse ++ newSuffix.data)

/-- Model of `posixpath.dirname`: everything up to the last `/`, with
trailing slashes stripped unless the head is all slashes. -/
def os_path_dirname (p : String) : String :=
  let head := (p.data.reverse.dropWhile (fun c => c ≠ '/')).reverse
  if head.isEmpty then ""
  else if head.all (fun c => c = '/') then String.mk head
  else String.mk ((head.reverse.dropWhile (fun c => c = '/')).reverse)

/-- Model of `posixpath.join` for two components. -/
def os_path_join (a b : String) : String :=
  if startsWithSlash b then b
  else if a = "" ∨ endsWithSlash a then a ++ b
  else a ++ "/" ++ b

/-- Model of `os.path.join(*parts)` folded over a non-empty parts list
(the source only applies it to the parts of a non-empty resolved path). -/
def os_path_join_list : List String → String
  | [] => ""
  | p :: ps => ps.foldl os_path_join p

/-- Replace every `.` by `/`, the effect of `module_name.replace(".", "/")`
for the single-character pattern used by the source. -/
def dotsToSlashes (s : String) : String :=
  String.mk (s.data.map (fun c => if c = '.' then '/' else c))

/-- Join segments with `.`, the effect of `".".join(parts)`. -/
def joinDots : List String → String
  | [] => ""
  | [x] => x
  | x :: y :: xs => x ++ "." ++ joinDots (y :: xs)

/-- Scan of `get_distribution_name_of_package`, lines 24-26: find the first
`"site-packages"` part; at hit index `i` return `parts[i+1]` when
`len(parts) - 1 > i + 1` (at least two parts follow the marker), else
`None`. -/
def findDistName : List String → Option String
  | [] => none
  | p :: rest =>
    if p = "site-packages" then
      match rest with
      | a :: _ :: _ => some a
      | _ => none
    else findDistName rest

/-- `get_distribution_name_of_package` (lines 20-27): scan the path's parts
for the `site-packages` marker and return the part after it, subject to the
source's index guard. -/
def get_distribution_name_of_package (package_filepath : String) : Option String :=
  findDistName (pathParts package_filepath)

/-- `Resolver._remove_junk_start_of_path` (lines 79-85): drop the first part
when it is `"."` or `".."`; a single test, so at most one leading junk
segment is removed. -/
def remove_junk_start_of_path (path : String) : List String :=
  let parts := pathParts path
  match parts with
  | [] => []
  | p :: rest => if p = "." ∨ p = ".." then rest else parts

/-- Loop of `_path_to_module_path`, lines 97-106: consume module-name parts
while they match the base-path parts positionally from the start; on the
first mismatch (or when the base parts run out) the remaining module-name
parts are kept.  The `module_path` string accumulator of the source is dead
code and omitted. -/
def ptmpConsume : List String → List String → List String
  | b :: bs, s :: ss => if b = s then ptmpConsume bs ss else s :: ss
  | _, rest => rest

/-- `Resolver._path_to_module_path` (lines 87-109): junk-strip the base
path, drop its first part as "the package", drop the module name's first
segment (`parts[1:]` on line 94), consume positionally matching segments,
and join what is left with dots.  Returns `none` for an empty base path. -/
def path_to_module_path (base_path module_name : String) : Option String :=
  match remove_junk_start_of_path base_path with
  | [] => none
  | _module_package :: cleaned_base_path_parts =>
    let source_module_name_parts := (pathParts (dotsToSlashes module_name)).drop 1
    some (joinDots (ptmpConsume cleaned_base_path_parts source_module_name_parts))

/-- The mutable state of a `Resolver` instance (lines 37-57): the host and
target OS identifiers and the two monotone sets, modelled as duplicate-free
insertion lists with set semantics. -/
structure ResolverState where
  system_os : String
  target_os : String
  included_packages_names : List String
  included_files_absolute_paths : List String

/-- External collaborators of the resolver, abstracted at the interfaces the
source uses them: the ambient loader (`_import_module`), the filesystem
(`os.path.exists`, `Path.is_file`, `os.path.abspath`), the installed stdlib
root, the distribution index (`packages_distributions`), and the
parse-and-dispatch walk over a `.py` file's statements (lines 209-213,
whose per-node handlers live outside this repository). -/
structure Env where
  import_module : String → String → Option (Option String)
  path_exists : String → Bool
  is_file : String → Bool
  abspath : String → String
  python_base_libs_folder_path : String
  packages_distributions : String → Option (List String)
  walk_source : ResolverState → String → Except String ResolverState

/-- `Resolver.add_python_file` (lines 137-144): add the adjacent
`__init__.py` if it exists on disk and is not yet included, then add the
file itself if not yet included. -/
def add_python_file (env : Env) (st : ResolverState) (filepath : String) : ResolverState :=
  let expected_init_filepath := os_path_join (os_path_dirname filepath) "__init__.py"
  let st1 :=
    if expected_init_filepath ∈ st.included_files_absolute_paths then st
    else if env.path_exists expected_init_filepath then
      { st with included_files_absolute_paths :=
          expected_init_filepath :: st.included_files_absolute_paths }
    else st
  if filepath ∈ st1.included_files_absolute_paths then st1
  else { st1 with included_files_absolute_paths :=
      filepath :: st1.included_files_absolute_paths }

/-- `Resolver.process_file` (lines 204-215): raise when the path does not
exist; parse and dispatch a `.py` file (external, `Env.walk_source`);
otherwise just add the file. -/
def process_file (env : Env) (st : ResolverState) (filepath : String) :
    Except String ResolverState :=
  if env.path_exists filepath then
    if pathSuffix filepath = ".py" then env.walk_source st filepath
    else Except.ok (add_python_file env st filepath)
  else Except.error ("Filepath does not exist : " ++ filepath)

/-- Platform-suffix adaptation of `add_package_by_name` (lines 155-174):
`none` means the early `return` (target-OS counterpart missing), `some fp`
the path resolution continues with.  Line 165 of the source compares the
whole `Path` object with the string `'.so'` instead of its `.suffix`; in
Python a `PurePath` never equals a `str`, so that guard is never true.  It
is modelled generously as string equality of the full path with `".so"`,
under which it is still false for every path with a directory component. -/
def adaptForTarget (env : Env) (st : ResolverState) (fp : String) : Option String :=
  if st.system_os = "windows" ∧ pathSuffix fp = ".pyd" then
    if st.target_os = "linux" then
      let fp2 := withSuffix fp ".so"
      if env.is_file fp2 then some fp2 else none
    else some fp
  else if st.system_os = "linux" ∧ fp = ".so" then
    if st.target_os = "windows" then
      let fp2 := withSuffix fp ".pyd"
      if env.is_file fp2 then some fp2 else none
    else some fp
  else some fp

/-- Classification and fold of `add_package_by_name` (lines 176-194) on the
platform-adapted resolved path, instrumented with the list of distribution
names whose entry file is handed to `process_file` (the `run_requires`
metadata read on lines 183-186 is discarded by the source and omitted). -/
def fold_resolved (env : Env) (st : ResolverState) (fp : String) :
    Except String ResolverState × List String :=
  match get_distribution_name_of_package fp with
  | some package_distribution_name =>
    match env.packages_distributions package_distribution_name with
    | some (real_package_name :: _) =>
      if real_package_name ∈ st.included_packages_names then (Except.ok st, [])
      else
        let st1 := { st with included_packages_names :=
            real_package_name :: st.included_packages_names }
        (process_file env st1 fp, [real_package_name])
    | _ => (Except.ok st, [])
  | none =>
    if fp ∈ st.included_files_absolute_paths then (Except.ok st, [])
    else (process_file env (add_python_file env st fp) fp, [])

/-- `Resolver.add_package_by_name` (lines 146-194), instrumented with the
trace of distribution entry-file walks: import the module (ambient loader),
absolutise the junk-stripped `__file__`, discard stdlib files (the source's
substring test `python_base_libs_folder_path not in path`), adapt the
compiled suffix for the target OS, then classify and fold. -/
def add_package_by_name_walks (env : Env) (st : ResolverState)
    (package_name current_filepath : String) :
    Except String ResolverState × List String :=
  match env.import_module package_name current_filepath with
  | none => (Except.ok st, [])
  | some none => (Except.ok st, [])
  | some (some file0) =>
    let fp := env.abspath (os_path_join_list (remove_junk_start_of_path file0))
    if hasSub env.python_base_libs_folder_path.data fp.data then (Except.ok st, [])
    else
      match adaptForTarget env st fp with
      | none => (Except.ok st, [])
      | some fp1 => fold_resolved env st fp1

/-- `Resolver.add_package_by_name`, trace forgotten. -/
def add_package_by_name (env : Env) (st : ResolverState)
    (package_name current_filepath : String) : Except String ResolverState :=
  (add_package_by_name_walks env st package_name current_filepath).1

/-- A run of the resolver as a work-list of `(package_name,
current_filepath)` import events (§9 of the design), accumulating the
distribution-walk trace; an exception aborts the run. -/
def run_events (env : Env) (st : ResolverState) :
    List (String × String) → Except String ResolverState × List String
  | [] => (Except.ok st, [])
  | e :: rest =>
    let res := add_package_by_name_walks env st e.1 e.2
    match res.1 with
    | Except.ok st1 =>
      let r := run_events env st1 rest
      (r.1, res.2 ++ r.2)
    | Except.error m => (Except.error m, res.2)

/-- Occurrence count in a trace. -/
def countOcc (d : String) : List String → Nat
  | [] => 0
  | x :: xs => (if x = d then 1 else 0) + countOcc d xs

/-- `Resolver.TARGETS_OS` (line 33). -/
def TARGETS_OS : List String := ["windows", "linux"]

/-- `Resolver.__init__` (lines 37-57): default the target OS to the host
OS, check it against `TARGETS_OS` (raising otherwise), and seed the
included-files set with the root file path.  No filesystem access occurs:
the definition takes no `Env`. -/
def Resolver_init (system_os root_filepath : String) (target_os : Option String) :
    Except String ResolverState :=
  let tos := target_os.getD system_os
  if tos ∈ TARGETS_OS then
    Except.ok { system_os := system_os, target_os := tos,
                included_packages_names := [],
                included_files_absolute_paths := [root_filepath] }
  else Except.error ("OS " ++ tos ++ " not supported")

/-- A directory tree, the filesystem view that `os.walk(folderpath,
topdown=True)` traverses in `import_folder`. -/
inductive DirTree where
  | node (name : String) (subdirs : List DirTree) (files : List String)

/-- Name of a tree's root directory. -/
def DirTree.name : DirTree → String
  | .node n _ _ => n

/-- The directory-pruning comprehension of `import_folder` (line 220):
`[d for d in dirs if Path(d).name not in excluded_folders_names]`.  With
`excluded_folders_names = None`, Python raises `TypeError` at the first
membership test, hence the `Except`. -/
def prune_dirs (excluded : Option (List String)) :
    List String → Except String (List String)
  | [] => Except.ok []
  | d :: ds =>
    match excluded with
    | none => Except.error "TypeError: argument of type NoneType is not iterable"
    | some l =>
      match prune_dirs (some l) ds with
      | Except.error e => Except.error e
      | Except.ok rest =>
        Except.ok (if pathName d ∈ l then rest else d :: rest)

/-- The filename loop of `import_folder` (lines 221-226): skip files whose
suffix is excluded, add the rest via `add_python_file`; membership against
`None` raises. -/
def add_files (env : Env) (st : ResolverState) (root_dirpath : String)
    (excluded : Option (List String)) :
    List String → Except String ResolverState
  | [] => Except.ok st
  | f :: fs =>
    match excluded with
    | none => Except.error "TypeError: argument of type NoneType is not iterable"
    | some l =>
      let st1 := if pathSuffix f ∈ l then st
                 else add_python_file env st (os_path_join root_dirpath f)
      add_files env st1 root_dirpath (some l) fs

mutual

/-- One `os.walk` triple of `import_folder` (lines 217-226): prune the
subdirectory names first (the source mutates `dirs` before the filename
loop), add the non-excluded files, then descend into the kept
subdirectories only (`topdown=True` pruning). -/
def walk_dir (env : Env) (st : ResolverState) (dirpath : String)
    (exF exE : Option (List String)) : DirTree → Except String ResolverState
  | .node _ subdirs files =>
    match prune_dirs exF (subdirs.map DirTree.name) with
    | Except.error e => Except.error e
    | Except.ok kept =>
      match add_files env st dirpath exE files with
      | Except.error e => Except.error e
      | Except.ok st1 => walk_subdirs env st1 dirpath exF exE kept subdirs

/-- Descend into each subdirectory whose name survived pruning. -/
def walk_subdirs (env : Env) (st : ResolverState) (parent : String)
    (exF exE : Option (List String)) (kept : List String) :
    List DirTree → Except String ResolverState
  | [] => Except.ok st
  | d :: ds =>
    if d.name ∈ kept then
      match walk_dir env st (os_path_join parent d.name) exF exE d with
      | Except.error e => Except.error e
      | Except.ok st1 => walk_subdirs env st1 parent exF exE kept ds
    else walk_subdirs env st parent exF exE kept ds

end

/-- `Resolver.import_folder` (lines 217-226) over a directory tree. -/
def import_folder (env : Env) (st : ResolverState) (folderpath : String)
    (tree : DirTree) (excluded_folders_names excluded_files_extensions : Option (List String)) :
    Except String ResolverState :=
  walk_dir env st folderpath excluded_folders_names excluded_files_extensions tree

/-! ### Lemmas about the distribution-name scan -/

/-- The scan skips any leading parts that are not the marker. -/
theorem findDistName_append (pre l : List String)
    (h : "site-packages" ∉ pre) : findDistName (pre ++ l) = findDistName l := by
  induction pre with
  | nil => rfl
  | cons p ps ih =>
    have hp : p ≠ "site-packages" := fun hc => h (hc ▸ List.mem_cons_self p ps)
    have hps : "site-packages" ∉ ps := fun hc => h (List.mem_cons_of_mem p hc)
    simp only [List.cons_append, findDistName, if_neg hp]
    exact ih hps

/-- A list without the marker scans to `none`. -/
theorem findDistName_not_mem (l : List String)
    (h : "site-packages" ∉ l) : findDistName l = none := by
  induction l with
  | nil => rfl
  | cons p ps ih =>
    have hp : p ≠ "site-packages" := fun hc => h (hc ▸ List.mem_cons_self p ps)
    have hps : "site-packages" ∉ ps := fun hc => h (List.mem_cons_of_mem p hc)
    simp only [findDistName, if_neg hp]
    exact ih hps

/-! ### Claim theorems for the pure path algebra -/

/-- Counterexample to C1: for base path `"/pkg/sub"` the leading `/` is a
path part of its own and occupies the consumed "package" slot, and the
module name's first segment is dropped unconditionally (line 94), so
neither of the claimed outputs is produced. -/
theorem C1_counterexample :
    path_to_module_path "/pkg/sub" "pkg.sub.mod" ≠ some "mod" ∧
    path_to_module_path "/pkg" "other.mod" ≠ some "other.mod" := by
  constructor <;> decide

/-- Claim C1 (amended): for base path `"/pkg/sub"` and module name
`"pkg.sub.mod"`, `_path_to_module_path` returns `"sub.mod"`; for base path
`"/pkg"` and module name `"other.mod"` it returns `"mod"` (the first
module-name segment is always dropped).  The claimed round trip to `"mod"`
does hold for the relative base path `"pkg/sub"`. -/
theorem C1_amended_round_trip :
    path_to_module_path "/pkg/sub" "pkg.sub.mod" = some "sub.mod" ∧
    path_to_module_path "/pkg" "other.mod" = some "mod" ∧
    path_to_module_path "pkg/sub" "pkg.sub.mod" = some "mod" := by
  refine ⟨?_, ?_, ?_⟩ <;> decide

/-- Counterexample to C2: the path `"/usr/site-packages/numpy"` contains
the marker segment, yet the function returns `none` rather than the
following segment `"numpy"`, because the guard on line 26 demands at least
two parts after the marker. -/
theorem C2_counterexample :
    "site-packages" ∈ pathParts "/usr/site-packages/numpy" ∧
    get_distribution_name_of_package "/usr/site-packages/numpy" ≠ some "numpy" ∧
    get_distribution_name_of_package "/usr/site-packages/numpy" = none := by
  refine ⟨?_, ?_, ?_⟩ <;> decide

/-- Claim C2 (amended): when the first `site-packages` part is followed by
at least two further parts, the function returns the part immediately after
the marker; when the marker is absent, or is the last part, or is followed
by exactly one part (the file name itself), it returns `None`. -/
theorem C2_amended_marker_scan :
    (∀ path pre a b rest, pathParts path = pre ++ "site-packages" :: a :: b :: rest →
        "site-packages" ∉ pre → get_distribution_name_of_package path = some a) ∧
    (∀ path, "site-packages" ∉ pathParts path →
        get_distribution_name_of_package path = none) ∧
    (∀ path pre, pathParts path = pre ++ ["site-packages"] →
        "site-packages" ∉ pre → get_distribution_name_of_package path = none) ∧
    (∀ path pre a, pathParts path = pre ++ ["site-packages", a] →
        "site-packages" ∉ pre → get_distribution_name_of_package path = none) := by
  refine ⟨?_, ?_, ?_, ?_⟩
  · intro path pre a b rest h hpre
    unfold get_distribution_name_of_package
    rw [h, findDistName_append pre _ hpre]
    simp [findDistName]
  · intro path h
    unfold get_distribution_name_of_package
    exact findDistName_not_mem _ h
  · intro path pre h hpre
    unfold get_distribution_name_of_package
    rw [h, findDistName_append pre _ hpre]
    simp [findDistName]
  · intro path pre a h hpre
    unfold get_distribution_name_of_package
    rw [h, findDistName_append pre _ hpre]
    simp [findDistName]

/-- Witness for the amended C2 at a concrete installed-library path. -/
theorem C2_amended_witness :
    get_distribution_name_of_package "/usr/site-packages/numpy/core.py" = some "numpy" :=
  C2_amended_marker_scan.1 "/usr/site-packages/numpy/core.py" ["/", "usr"]
    "numpy" "core.py" [] (by decide) (by decide)

/-- Counterexample to C8: `_remove_junk_start_of_path` performs a single
test on the first part (lines 82-84), so only one leading junk segment is
stripped and `"../../pkg/mod.py"` keeps one `".."`. -/
theorem C8_counterexample :
    remove_junk_start_of_path "../../pkg/mod.py" ≠ ["pkg", "mod.py"] ∧
    remove_junk_start_of_path "../../pkg/mod.py" = ["..", "pkg", "mod.py"] := by
  constructor <;> decide

/-- Claim C8 (amended): the algorithm strips exactly one leading `"."` or
`".."` segment from the base path before treating the first remaining
segment as the package: whenever the first part is junk, the result is the
list of remaining parts unchanged. -/
theorem C8_amended_strip_one (path p : String) (rest : List String)
    (h : pathParts path = p :: rest) (hp : p = "." ∨ p = "..") :
    remove_junk_start_of_path path = rest := by
  unfold remove_junk_start_of_path
  rw [h]
  simp [hp]

/-- Witness for the amended C8: one `".."` segment is stripped. -/
theorem C8_amended_witness :
    remove_junk_start_of_path "../pkg/mod.py" = ["pkg", "mod.py"] :=
  C8_amended_strip_one "../pkg/mod.py" ".." ["pkg", "mod.py"] (by decide) (Or.inr rfl)

/-! ### Lemmas about the resolver operations -/

/-- A string-prefix is in particular a substring. -/
theorem hasSub_of_takeStart (n h : List Char) (ht : takeStart n h = true) :
    hasSub n h = true := by
  cases h with
  | nil => simpa [hasSub] using ht
  | cons b bs => simp [hasSub, ht]

/-- `add_python_file` only touches the included-files set. -/
theorem add_python_file_packages (env : Env) (st : ResolverState) (fp : String) :
    (add_python_file env st fp).included_packages_names = st.included_packages_names := by
  unfold add_python_file
  dsimp only
  split_ifs <;> rfl

/-- The parse-and-dispatch walk can only grow the included-distributions
set (line 188 is the only insertion, and `process_node` handlers call back
into the resolver's add operations). -/
def WalkMono (env : Env) : Prop :=
  ∀ s f s', env.walk_source s f = Except.ok s' →
    ∀ x, x ∈ s.included_packages_names → x ∈ s'.included_packages_names

/-- `process_file` preserves membership of the included-distributions set
when the walk does. -/
theorem process_file_mono (env : Env) (hm : WalkMono env) (s : ResolverState)
    (f : String) (s' : ResolverState) (x : String)
    (h : process_file env s f = Except.ok s')
    (hx : x ∈ s.included_packages_names) : x ∈ s'.included_packages_names := by
  unfold process_file at h
  by_cases he : env.path_exists f = true
  · rw [if_pos he] at h
    by_cases hp : pathSuffix f = ".py"
    · rw [if_pos hp] at h
      exact hm s f s' h x hx
    · rw [if_neg hp] at h
      injection h with h
      rw [← h, add_python_file_packages]
      exact hx
  · rw [if_neg he] at h
    exact absurd h (by simp)

/-! ### Concrete environments and states used by the witnesses -/

/-- A state on a linux host building for linux, seeded with a root file. -/
def stLinux : ResolverState :=
  { system_os := "linux", target_os := "linux",
    included_packages_names := [],
    included_files_absolute_paths := ["/home/user/main.py"] }

/-- An environment in which nothing exists on disk and no module resolves. -/
def envStub : Env :=
  { import_module := fun _ _ => none,
    path_exists := fun _ => false,
    is_file := fun _ => false,
    abspath := fun s => s,
    python_base_libs_folder_path := "/usr/lib/python3.8",
    packages_distributions := fun _ => none,
    walk_source := fun s _ => Except.ok s }

/-- A linux host building for windows, seeded with a root file. -/
def stC3 : ResolverState :=
  { system_os := "linux", target_os := "windows",
    included_packages_names := [],
    included_files_absolute_paths := ["/home/user/main.py"] }

/-- An environment in which the imported module resolves to a compiled
`.so` artifact outside both the stdlib root and any `site-packages`
folder, and no `.pyd` counterpart exists on disk. -/
def envC3 : Env :=
  { import_module := fun _ _ => some (some "/home/user/ext/mod.so"),
    path_exists := fun p => p = "/home/user/ext/mod.so",
    is_file := fun p => p = "/home/user/ext/mod.so",
    abspath := fun s => s,
    python_base_libs_folder_path := "/usr/lib/python3.8",
    packages_distributions := fun _ => none,
    walk_source := fun s _ => Except.ok s }

/-! ### Claim theorems for the resolver operations -/

/-- Claim C3 (code bug, linux-to-windows direction): line 165 compares the
whole resolved path with the string `'.so'` instead of comparing its
`.suffix`, so the guard never fires.  On host linux targeting windows, a
module resolving to `/home/user/ext/mod.so` whose `.pyd` counterpart does
not exist is neither rewritten nor skipped: the `.so` file itself is folded
into the included files, where the spec requires the import to contribute
nothing. -/
theorem C3_code_bug_eval :
    stC3.system_os = "linux" ∧ stC3.target_os = "windows" ∧
    pathSuffix "/home/user/ext/mod.so" = ".so" ∧
    envC3.is_file (withSuffix "/home/user/ext/mod.so" ".pyd") = false ∧
    add_package_by_name envC3 stC3 "mod" "/home/user/main.py" =
      Except.ok { stC3 with included_files_absolute_paths :=
        "/home/user/ext/mod.so" :: stC3.included_files_absolute_paths } := by
  refine ⟨rfl, rfl, by decide, by decide, ?_⟩
  rfl

/-- Claim C4: on host windows targeting linux, when the resolved module
file's suffix is `.pyd` and the sibling `.so` file does not exist, the call
returns before any fold: the state is unchanged and no distribution entry
file is walked. -/
theorem C4_skip_no_platform_match (env : Env) (st : ResolverState)
    (package_name current_filepath file0 : String)
    (hsys : st.system_os = "windows") (htgt : st.target_os = "linux")
    (himp : env.import_module package_name current_filepath = some (some file0))
    (hsuf : pathSuffix (env.abspath (os_path_join_list
      (remove_junk_start_of_path file0))) = ".pyd")
    (hso : env.is_file (withSuffix (env.abspath (os_path_join_list
      (remove_junk_start_of_path file0))) ".so") = false) :
    add_package_by_name_walks env st package_name current_filepath =
      (Except.ok st, []) := by
  unfold add_package_by_name_walks
  rw [himp]
  by_cases hstd : hasSub env.python_base_libs_folder_path.data
      ((env.abspath (os_path_join_list (remove_junk_start_of_path file0)))).data = true
  · simp [hstd]
  · rw [Bool.not_eq_true] at hstd
    simp only [hstd, Bool.false_eq_true, if_false]
    unfold adaptForTarget
    simp [hsys, htgt, hsuf, hso]

/-- Claim C6: an import whose resolved absolute path lies under the host's
standard-library install root (the root is a prefix of the path, hence in
particular a substring, which is what line 152 tests) leaves the state
unchanged and walks nothing; as the state is universally quantified, this
holds at every operation of any run. -/
theorem C6_stdlib_exclusion (env : Env) (st : ResolverState)
    (package_name current_filepath file0 : String)
    (himp : env.import_module package_name current_filepath = some (some file0))
    (hroot : takeStart env.python_base_libs_folder_path.data
      (env.abspath (os_path_join_list (remove_junk_start_of_path file0))).data = true) :
    add_package_by_name_walks env st package_name current_filepath =
      (Except.ok st, []) := by
  unfold add_package_by_name_walks
  rw [himp]
  simp [hasSub_of_takeStart _ _ hroot]

/-- Claim C7: after `add_python_file filepath`, when a sibling
`__init__.py` exists on disk, both the file and the initializer are members
of the included-files set. -/
theorem C7_adjacent_init (env : Env) (st : ResolverState) (filepath : String)
    (h : env.path_exists (os_path_join (os_path_dirname filepath) "__init__.py") = true) :
    filepath ∈ (add_python_file env st filepath).included_files_absolute_paths ∧
    os_path_join (os_path_dirname filepath) "__init__.py"
      ∈ (add_python_file env st filepath).included_files_absolute_paths := by
  unfold add_python_file
  simp only [h]
  split_ifs with h1 h2 h3 <;>
    simp_all [List.mem_cons]

/-- Claim C10: construction takes no filesystem access at all (the
definition has no `Env` argument), succeeds for any root string when the
target OS is supported, and seeds the included files with the root; a
nonexistent path is only rejected later, by the guard of `process_file`. -/
theorem C10_no_existence_check :
    (∀ system_os root_filepath target_os, target_os ∈ TARGETS_OS →
        ∃ st, Resolver_init system_os root_filepath (some target_os) = Except.ok st ∧
          root_filepath ∈ st.included_files_absolute_paths) ∧
    (∀ env st filepath, env.path_exists filepath = false →
        process_file env st filepath =
          Except.error ("Filepath does not exist : " ++ filepath)) := by
  constructor
  · intro sys root tos htos
    refine ⟨{ system_os := sys, target_os := tos, included_packages_names := [],
              included_files_absolute_paths := [root] }, ?_, ?_⟩
    · unfold Resolver_init
      simp [htos]
    · simp
  · intro env st fp h
    unfold process_file
    simp [h]

/-! ### The at-most-once distribution walk -/

/-- What one resolver call guarantees about its distribution-walk trace:
it walks at most one distribution, only one not yet included, and on normal
return every previously-included name and every freshly walked name is
included afterwards. -/
def StepOK (st : ResolverState) (r : Except String ResolverState × List String) : Prop :=
  (r.2 = [] ∨ ∃ D, r.2 = [D] ∧ D ∉ st.included_packages_names) ∧
  (∀ st', r.1 = Except.ok st' →
    ∀ x, x ∈ st.included_packages_names ∨ x ∈ r.2 → x ∈ st'.included_packages_names)

/-- The trivial step: state returned unchanged, nothing walked. -/
theorem stepOK_id (st : ResolverState) : StepOK st (Except.ok st, []) := by
  constructor
  · left; rfl
  · intro st' h x hx
    injection h with h
    subst h
    rcases hx with hx | hx
    · exact hx
    · cases hx

/-- The classification-and-fold stage satisfies `StepOK`. -/
theorem foldOK (env : Env) (hm : WalkMono env) (st : ResolverState) (fp1 : String) :
    StepOK st (fold_resolved env st fp1) := by
  unfold fold_resolved
  cases hdn : get_distribution_name_of_package fp1 with
  | none =>
    dsimp only
    by_cases hin : fp1 ∈ st.included_files_absolute_paths
    · simp only [if_pos hin]
      exact stepOK_id st
    · simp only [if_neg hin]
      constructor
      · left; rfl
      · intro st' h x hx
        rcases hx with hx | hx
        · refine process_file_mono env hm _ _ _ _ h ?_
          rw [add_python_file_packages]
          exact hx
        · cases hx
  | some pdn =>
    dsimp only
    cases hpd : env.packages_distributions pdn with
    | none => exact stepOK_id st
    | some l =>
      cases l with
      | nil => exact stepOK_id st
      | cons real_package_name rest =>
        dsimp only
        by_cases hreal : real_package_name ∈ st.included_packages_names
        · simp only [if_pos hreal]
          exact stepOK_id st
        · simp only [if_neg hreal]
          constructor
          · right
            exact ⟨real_package_name, rfl, hreal⟩
          · intro st' h x hx
            refine process_file_mono env hm _ _ _ _ h ?_
            rcases hx with hx | hx
            · exact List.mem_cons_of_mem _ hx
            · rcases List.mem_singleton.mp hx with rfl
              exact List.mem_cons_self _ _

/-- Every single `add_package_by_name` call satisfies `StepOK`. -/
theorem awalks_step (env : Env) (hm : WalkMono env) (st : ResolverState) (p c : String) :
    StepOK st (add_package_by_name_walks env st p c) := by
  unfold add_package_by_name_walks
  cases himp : env.import_module p c with
  | none => exact stepOK_id st
  | some mf =>
    cases mf with
    | none => exact stepOK_id st
    | some file0 =>
      dsimp only
      by_cases hstd : hasSub env.python_base_libs_folder_path.data
          (env.abspath (os_path_join_list (remove_junk_start_of_path file0))).data = true
      · simp only [hstd, if_true]
        exact stepOK_id st
      · rw [Bool.not_eq_true] at hstd
        simp only [hstd, Bool.false_eq_true, if_false]
        cases had : adaptForTarget env st
            (env.abspath (os_path_join_list (remove_junk_start_of_path file0))) with
        | none => exact stepOK_id st
        | some fp1 => exact foldOK env hm st fp1

/-- Counting distributes over trace concatenation. -/
theorem countOcc_append (d : String) (a b : List String) :
    countOcc d (a ++ b) = countOcc d a + countOcc d b := by
  induction a with
  | nil => simp [countOcc]
  | cons x xs ih => simp [countOcc, ih, Nat.add_assoc]

/-- Run-level bound: a distribution already included is never walked again,
and one not yet included is walked at most once. -/
theorem run_events_count (env : Env) (hm : WalkMono env) :
    ∀ (events : List (String × String)) (st : ResolverState) (D : String),
      countOcc D (run_events env st events).2 ≤
        (if D ∈ st.included_packages_names then 0 else 1) := by
  intro events
  induction events with
  | nil =>
    intro st D
    simp [run_events, countOcc]
  | cons e rest ih =>
    intro st D
    obtain ⟨htr, hmono⟩ := awalks_step env hm st e.1 e.2
    unfold run_events
    dsimp only
    cases hr : (add_package_by_name_walks env st e.1 e.2).1 with
    | error m =>
      rcases htr with htr | ⟨Dw, hDw, hDwnin⟩
      · rw [htr]
        simp [countOcc]
      · rw [hDw]
        by_cases hDin : D ∈ st.included_packages_names
        · have hne : Dw ≠ D := fun hh => hDwnin (hh ▸ hDin)
          simp [countOcc, hne, hDin]
        · rw [if_neg hDin]
          by_cases hq : Dw = D <;> simp [countOcc, hq]
    | ok st1 =>
      rw [countOcc_append]
      have hrest := ih st1 D
      rcases htr with htr | ⟨Dw, hDw, hDwnin⟩
      · rw [htr]
        by_cases hDin : D ∈ st.included_packages_names
        · have hD1 : D ∈ st1.included_packages_names := hmono st1 hr D (Or.inl hDin)
          rw [if_pos hD1] at hrest
          rw [if_pos hDin]
          simpa [countOcc] using hrest
        · rw [if_neg hDin]
          have h1 : countOcc D (run_events env st1 rest).2 ≤ 1 := by
            refine le_trans hrest ?_
            split <;> omega
          simpa [countOcc] using h1
      · rw [hDw]
        by_cases hDD : Dw = D
        · subst hDD
          have hDmem : Dw ∈ (add_package_by_name_walks env st e.1 e.2).2 := by
            rw [hDw]
            exact List.mem_singleton_self _
          have hD1 : Dw ∈ st1.included_packages_names := hmono st1 hr Dw (Or.inr hDmem)
          rw [if_pos hD1] at hrest
          rw [if_neg hDwnin]
          have hc1 : countOcc Dw [Dw] = 1 := by simp [countOcc]
          rw [hc1]
          omega
        · have hc0 : countOcc D [Dw] = 0 := by simp [countOcc, hDD]
          rw [hc0]
          by_cases hDin : D ∈ st.included_packages_names
          · have hD1 : D ∈ st1.included_packages_names := hmono st1 hr D (Or.inl hDin)
            rw [if_pos hD1] at hrest
            rw [if_pos hDin]
            omega
          · rw [if_neg hDin]
            refine le_trans (by omega : 0 + countOcc D (run_events env st1 rest).2 ≤
              countOcc D (run_events env st1 rest).2) ?_
            refine le_trans hrest ?_
            split <;> omega

/-- Claim C5: over any run (work-list of import events), a distribution not
yet included is walked at most once, and an import resolving into an
already-included distribution is a strict no-op (state unchanged, nothing
walked). -/
theorem C5_at_most_once (env : Env) (hm : WalkMono env) :
    (∀ (st : ResolverState) (events : List (String × String)) (D : String),
        D ∉ st.included_packages_names →
        countOcc D (run_events env st events).2 ≤ 1) ∧
    (∀ (st : ResolverState) (package_name current_filepath file0 fp1 pdn D : String)
        (rest : List String),
        env.import_module package_name current_filepath = some (some file0) →
        hasSub env.python_base_libs_folder_path.data
          (env.abspath (os_path_join_list (remove_junk_start_of_path file0))).data = false →
        adaptForTarget env st (env.abspath (os_path_join_list
          (remove_junk_start_of_path file0))) = some fp1 →
        get_distribution_name_of_package fp1 = some pdn →
        env.packages_distributions pdn = some (D :: rest) →
        D ∈ st.included_packages_names →
        add_package_by_name_walks env st package_name current_filepath =
          (Except.ok st, [])) := by
  constructor
  · intro st events D hD
    have h := run_events_count env hm events st D
    rwa [if_neg hD] at h
  · intro st p c file0 fp1 pdn D rest himp hstd had hdn hpd hin
    unfold add_package_by_name_walks
    rw [himp]
    simp only [hstd, Bool.false_eq_true, if_false]
    rw [had]
    dsimp only
    unfold fold_resolved
    rw [hdn]
    dsimp only
    rw [hpd]
    simp [hin]

/-! ### The folder importer -/

/-- Pruning with an explicit exclusion list never raises. -/
theorem prune_dirs_some_ok (l ds : List String) :
    ∃ kept, prune_dirs (some l) ds = Except.ok kept := by
  induction ds with
  | nil => exact ⟨[], rfl⟩
  | cons d rest ih =>
    obtain ⟨kept, hk⟩ := ih
    refine ⟨if pathName d ∈ l then kept else d :: kept, ?_⟩
    unfold prune_dirs
    dsimp only
    rw [hk]

/-- The filename loop with an explicit exclusion list never raises. -/
theorem add_files_some_ok (env : Env) (root : String) (l : List String) :
    ∀ (files : List String) (st : ResolverState),
      ∃ st1, add_files env st root (some l) files = Except.ok st1 := by
  intro files
  induction files with
  | nil => intro st; exact ⟨st, rfl⟩
  | cons f fs ih =>
    intro st
    obtain ⟨st1, h1⟩ := ih (if pathSuffix f ∈ l then st
      else add_python_file env st (os_path_join root f))
    exact ⟨st1, h1⟩

mutual

/-- With explicit exclusion lists the walk of a directory never raises. -/
theorem walk_dir_some_ok (env : Env) (exF exE : List String) :
    ∀ (t : DirTree) (st : ResolverState) (dirpath : String),
      ∃ st', walk_dir env st dirpath (some exF) (some exE) t = Except.ok st'
  | DirTree.node _n subdirs files, st, dirpath => by
    obtain ⟨kept, hk⟩ := prune_dirs_some_ok exF (subdirs.map DirTree.name)
    obtain ⟨st1, h1⟩ := add_files_some_ok env dirpath exE files st
    obtain ⟨st2, h2⟩ := walk_subdirs_some_ok env exF exE subdirs st1 dirpath kept
    refine ⟨st2, ?_⟩
    unfold walk_dir
    rw [hk]
    dsimp only
    rw [h1]
    dsimp only
    exact h2

/-- With explicit exclusion lists the walk of a subdirectory list never
raises. -/
theorem walk_subdirs_some_ok (env : Env) (exF exE : List String) :
    ∀ (ts : List DirTree) (st : ResolverState) (parent : String) (kept : List String),
      ∃ st', walk_subdirs env st parent (some exF) (some exE) kept ts = Except.ok st'
  | [], st, _parent, _kept => ⟨st, rfl⟩
  | d :: ds, st, parent, kept => by
    by_cases hmem : d.name ∈ kept
    · obtain ⟨st1, h1⟩ := walk_dir_some_ok env exF exE d st (os_path_join parent d.name)
      obtain ⟨st2, h2⟩ := walk_subdirs_some_ok env exF exE ds st1 parent kept
      refine ⟨st2, ?_⟩
      unfold walk_subdirs
      rw [if_pos hmem, h1]
      dsimp only
      exact h2
    · obtain ⟨st2, h2⟩ := walk_subdirs_some_ok env exF exE ds st parent kept
      refine ⟨st2, ?_⟩
      unfold walk_subdirs
      rw [if_neg hmem]
      exact h2

end

/-- Claim C9: with the default `None` exclusion arguments, `import_folder`
raises a `TypeError` (membership is tested against `None`) on every folder
tree that contains at least one subdirectory or file; with explicit
exclusion lists the bulk import always succeeds. -/
theorem C9_none_exclusions_error :
    (∀ (env : Env) (st : ResolverState) (folderpath dname : String)
        (subdirs : List DirTree) (files : List String),
        subdirs ≠ [] ∨ files ≠ [] →
        ∃ msg, import_folder env st folderpath (DirTree.node dname subdirs files)
          none none = Except.error msg) ∧
    (∀ (env : Env) (st : ResolverState) (folderpath : String) (tree : DirTree)
        (exF exE : List String),
        ∃ st', import_folder env st folderpath tree (some exF) (some exE) =
          Except.ok st') := by
  constructor
  · intro env st folderpath dname subdirs files h
    cases subdirs with
    | cons d ds =>
      exact ⟨"TypeError: argument of type NoneType is not iterable", rfl⟩
    | nil =>
      cases files with
      | nil =>
        rcases h with h | h <;> exact absurd rfl h
      | cons f fs =>
        exact ⟨"TypeError: argument of type NoneType is not iterable", rfl⟩
  · intro env st folderpath tree exF exE
    exact walk_dir_some_ok env exF exE tree st folderpath

/-! ### Witnesses -/

/-- A windows host building for linux. -/
def stWin : ResolverState :=
  { system_os := "windows", target_os := "linux",
    included_packages_names := [],
    included_files_absolute_paths := ["/proj/main.py"] }

/-- The imported module resolves to a windows compiled artifact and no
file at all exists on disk, in particular not the rewritten `.so`. -/
def envPyd : Env :=
  { import_module := fun _ _ => some (some "/proj/libs/mod.pyd"),
    path_exists := fun _ => false,
    is_file := fun _ => false,
    abspath := fun s => s,
    python_base_libs_folder_path := "/usr/lib/python3.8",
    packages_distributions := fun _ => none,
    walk_source := fun s _ => Except.ok s }

/-- Witness for C4 at a concrete windows-to-linux configuration. -/
theorem C4_witness :
    add_package_by_name_walks envPyd stWin "mod" "/proj/main.py" =
      (Except.ok stWin, []) :=
  C4_skip_no_platform_match envPyd stWin "mod" "/proj/main.py" "/proj/libs/mod.pyd"
    rfl rfl rfl (by decide) rfl

/-- The imported module resolves to a file inside the standard-library
install root. -/
def envStdlib : Env :=
  { import_module := fun _ _ => some (some "/usr/lib/python3.8/os.py"),
    path_exists := fun _ => true,
    is_file := fun _ => true,
    abspath := fun s => s,
    python_base_libs_folder_path := "/usr/lib/python3.8",
    packages_distributions := fun _ => none,
    walk_source := fun s _ => Except.ok s }

/-- Witness for C6 at a concrete standard-library import. -/
theorem C6_witness :
    add_package_by_name_walks envStdlib stLinux "os" "/home/user/main.py" =
      (Except.ok stLinux, []) :=
  C6_stdlib_exclusion envStdlib stLinux "os" "/home/user/main.py"
    "/usr/lib/python3.8/os.py" rfl (by decide)

/-- A filesystem on which only the package initializer exists. -/
def envInitFs : Env :=
  { import_module := fun _ _ => none,
    path_exists := fun p => p = "/pkg/sub/__init__.py",
    is_file := fun _ => false,
    abspath := fun s => s,
    python_base_libs_folder_path := "/usr/lib/python3.8",
    packages_distributions := fun _ => none,
    walk_source := fun s _ => Except.ok s }

/-- Witness for C7 at a concrete local file with an adjacent initializer. -/
theorem C7_witness :
    "/pkg/sub/mod.py" ∈
      (add_python_file envInitFs stLinux "/pkg/sub/mod.py").included_files_absolute_paths ∧
    os_path_join (os_path_dirname "/pkg/sub/mod.py") "__init__.py" ∈
      (add_python_file envInitFs stLinux "/pkg/sub/mod.py").included_files_absolute_paths :=
  C7_adjacent_init envInitFs stLinux "/pkg/sub/mod.py" (by decide)

/-- The imported module resolves into the `numpy` folder of a
`site-packages` directory, and the distribution index maps it to the
distribution `numpy`. -/
def envNumpy : Env :=
  { import_module := fun _ _ => some (some "/venv/site-packages/numpy/core.py"),
    path_exists := fun _ => true,
    is_file := fun _ => true,
    abspath := fun s => s,
    python_base_libs_folder_path := "/usr/lib/python3.8",
    packages_distributions := fun n => if n = "numpy" then some ["numpy"] else none,
    walk_source := fun s _ => Except.ok s }

/-- Witness for C5: two imports of the same distribution walk it once. -/
theorem C5_witness :
    countOcc "numpy" (run_events envNumpy stLinux
      [("numpy", "/home/user/main.py"), ("numpy", "/home/user/main.py")]).2 ≤ 1 :=
  (C5_at_most_once envNumpy
      (fun _s _f _s' h x hx => by injection h with h; exact h ▸ hx)).1
    stLinux [("numpy", "/home/user/main.py"), ("numpy", "/home/user/main.py")]
    "numpy" (by decide)

/-- Witness for C9: a one-file tree raises under `None` exclusions and
succeeds under explicit ones. -/
theorem C9_witness :
    (∃ msg, import_folder envStub stLinux "/proj"
      (DirTree.node "proj" [] ["a.py"]) none none = Except.error msg) ∧
    (∃ st', import_folder envStub stLinux "/proj"
      (DirTree.node "proj" [] ["a.py"]) (some ["node_modules"]) (some [".pyc"]) =
        Except.ok st') :=
  ⟨C9_none_exclusions_error.1 envStub stLinux "/proj" "proj" [] ["a.py"]
      (Or.inr (by decide)),
   C9_none_exclusions_error.2 envStub stLinux "/proj" _ _ _⟩

/-- Witness for C10: construction with a nonexistent root succeeds and
seeds it; `process_file` on the same path raises. -/
theorem C10_witness :
    (∃ st, Resolver_init "linux" "/no/such/root.py" (some "linux") = Except.ok st ∧
        "/no/such/root.py" ∈ st.included_files_absolute_paths) ∧
    process_file envStub stLinux "/no/such/root.py" =
      Except.error ("Filepath does not exist : " ++ "/no/such/root.py") :=
  ⟨C10_no_existence_check.1 "linux" "/no/such/root.py" "linux" (by decide),
   C10_no_existence_check.2 envStub stLinux "/no/such/root.py" rfl⟩

end ServerlessPack
